import Mathlib

/-!
Shallow embedding of `greeting_agent/agent.py`.

Strings are modelled as `List Char` (`Str`).  The external search provider
(Google Custom Search, reached through `service.cse().list(...).execute()`)
is modelled as an oracle `SearchRequest → Except Str SearchResponse`: the
`Except.error` case stands for any exception raised by the network call.
Python dicts keyed by title are modelled as association lists built in
insertion order.  Python truthiness of an optional string (`if title and
snippet`) is: the field is present and the string is non-empty.
-/

namespace GreetingAgent

abbrev Str := List Char

/-- One result item of the provider response: `item.get('title')` /
`item.get('snippet')` may each be absent. -/
structure SearchItem where
  title : Option Str
  snippet : Option Str
deriving DecidableEq

/-- The provider response `res`: the `'items'` field may be absent
(`if 'items' in res`). -/
structure SearchResponse where
  items : Option (List SearchItem)
deriving DecidableEq

/-- The outbound request built in `_search_special_days`:
`service.cse().list(q=search_query, cx=GOOGLE_CSE_ID, num=5)`. -/
structure SearchRequest where
  q : Str
  cx : Str
  num : Nat
deriving DecidableEq

/-- Python truthiness of an optional string: present and non-empty. -/
def pyTruthy : Option Str → Bool
  | none => false
  | some s => !s.isEmpty

/-- `title.lower()`. -/
def lowerStr (s : Str) : Str := s.map Char.toLower

/-- Python `needle in hay` on strings: substring containment. -/
def strContains (needle hay : Str) : Bool := decide (needle <:+: hay)

/-- The separator `'...'` used by `snippet.split('...')`. -/
def dots : Str := ['.', '.', '.']

/-- `snippet.split(sep)[0]`: the characters before the first occurrence of
`sep` (the whole string when `sep` does not occur). -/
def takeUntil (sep : Str) : Str → Str
  | [] => []
  | c :: cs => if sep.isPrefixOf (c :: cs) then [] else c :: takeUntil sep cs

/-- Python `.strip()`: drop whitespace from both ends. -/
def stripChars (s : Str) : Str :=
  ((s.dropWhile Char.isWhitespace).reverse.dropWhile Char.isWhitespace).reverse

/-- Line 88: `description = snippet.split('...')[0].strip()`. -/
def extractDescription (snippet : Str) : Str := stripChars (takeUntil dots snippet)

/-- Line 86 title filter: `"day" in title.lower() or "observance" in title.lower()`. -/
def titleRelevant (t : Str) : Bool :=
  strContains "day".data (lowerStr t) || strContains "observance".data (lowerStr t)

/-- Lines 89–90: `if title not in results: results[title] = description`
(insert only when the key is absent). -/
def dictInsert (m : List (Str × Str)) (k v : Str) : List (Str × Str) :=
  if m.any (fun p => p.1 == k) then m else m ++ [(k, v)]

/-- Dict lookup on the association-list model. -/
def dictLookup (m : List (Str × Str)) (k : Str) : Option Str :=
  (m.find? (fun p => p.1 == k)).map (fun p => p.2)

/-- The body of the `for item in res['items']` loop (lines 82–90), as a fold
step on the accumulated dict. -/
def processItem (acc : List (Str × Str)) (item : SearchItem) : List (Str × Str) :=
  match item.title, item.snippet with
  | some title, some snippet =>
    if !title.isEmpty && !snippet.isEmpty && titleRelevant title then
      dictInsert acc title (extractDescription snippet)
    else acc
  | _, _ => acc

/-- The whole `'items'` loop over a list of items, starting from `results = {}`. -/
def processItems (items : List SearchItem) : List (Str × Str) :=
  items.foldl processItem []

/-- Lines 81–92: guard on `'items' in res`, then the loop. -/
def processResponse (res : SearchResponse) : List (Str × Str) :=
  match res.items with
  | some items => processItems items
  | none => []

/-- Line 76: `f"international OR world OR national day {date_query} official observances"`. -/
def mkSearchQuery (dateQuery : Str) : Str :=
  "international OR world OR national day ".data ++ dateQuery ++ " official observances".data

/-- The single request issued at line 79. -/
def mkSearchRequest (cx : Str) (dateQuery : Str) : SearchRequest :=
  { q := mkSearchQuery dateQuery, cx := cx, num := 5 }

/-- `_search_special_days` (lines 67–92): build the request, submit it to the
provider, process the response.  The second component records the outbound
requests issued (exactly the one of line 79).  A provider failure is
propagated as `Except.error`, matching "Raises exceptions on API errors". -/
def search_special_days (provider : SearchRequest → Except Str SearchResponse)
    (cx dateQuery : Str) : Except Str (List (Str × Str)) × List SearchRequest :=
  let req := mkSearchRequest cx dateQuery
  ((provider req).map processResponse, [req])

/-- `get_special_day_info_from_external_source` (lines 38–65): call
`_search_special_days`, catch any exception and return the (empty) dict. -/
def get_special_day_info_from_external_source
    (provider : SearchRequest → Except Str SearchResponse)
    (cx dateQuery : Str) : List (Str × Str) :=
  match (search_special_days provider cx dateQuery).1 with
  | Except.ok r => r
  | Except.error _ => []

/-- Lines 28–35: the module-level configuration check.
`if not GOOGLE_CSE_API_KEY or not GOOGLE_CSE_ID: sys.exit(1)`.
`Except.error c` models `sys.exit(c)`. -/
def startup_check (apiKey cseId : Option Str) : Except Nat Unit :=
  if !pyTruthy apiKey || !pyTruthy cseId then Except.error 1 else Except.ok ()

/-- The events yielded by `self.runner.run(initial_prompt)` (lines 151–165). -/
inductive AdkEvent where
  | toolCode (toolName args : Str)
  | toolResponse (output : Str)
  | agentResponse (text : Str)
  | error (message : Str)
  | other
deriving DecidableEq

/-- What a run of `run_daily_check` ends as: the loop completed (with the
agent's final text and/or a reported agent error), or an exception was
caught by the `except` clause of lines 166–168. -/
inductive RunResult where
  | completed (finalText : Option Str) (agentError : Option Str)
  | caughtException (msg : Str)
deriving DecidableEq

/-- The event loop of lines 151–165: `agent_response` prints and breaks,
`error` reports and breaks, other events just log and continue. -/
def processEvents : List AdkEvent → RunResult
  | [] => RunResult.completed none none
  | e :: rest =>
    match e with
    | AdkEvent.agentResponse t => RunResult.completed (some t) none
    | AdkEvent.error m => RunResult.completed none (some m)
    | _ => processEvents rest

/-- `run_daily_check` (lines 135–168): the runner's outcome is either a list
of events or an exception; the `try`/`except` absorbs the exception. -/
def run_daily_check (runOutcome : Except Str (List AdkEvent)) : RunResult :=
  match runOutcome with
  | Except.ok events => processEvents events
  | Except.error e => RunResult.caughtException e

/-- How a run of the whole process can end: `exited` is a `sys.exit` with a
status code (the startup check, line 35), `crashed` is an uncaught exception
propagating out of the main block, `finished` is a completed daily check. -/
inductive ProcessOutcome where
  | exited (code : Nat)
  | crashed (msg : Str)
  | finished (result : RunResult)
deriving DecidableEq

/-- The process as a whole.  The module-level startup check runs first
(lines 28–35).  Then the main block (lines 171–184) constructs
`SpecialDayAgent` at line 181 outside any try/except: `constructOutcome`
models the external `LlmAgent`/`Runner` construction inside `__init__`
(lines 107–133), and its `Except.error` — for instance the `AttributeError`
raised by the misspelled `HarmCategory.HARMS_CATEGORY_*` members referenced
at lines 128–130 — is caught by no handler, so it crashes the process.
Only on successful construction does `run_daily_check` run. -/
def program (apiKey cseId : Option Str) (constructOutcome : Except Str Unit)
    (runOutcome : Except Str (List AdkEvent)) : ProcessOutcome :=
  match startup_check apiKey cseId with
  | Except.error c => ProcessOutcome.exited c
  | Except.ok _ =>
    match constructOutcome with
    | Except.error e => ProcessOutcome.crashed e
    | Except.ok _ => ProcessOutcome.finished (run_daily_check runOutcome)

/-- How an entry of the result mapping can arise from one loop iteration:
both fields present and non-empty, title relevant, value the extracted
description of the snippet. -/
def fromItem (item : SearchItem) (p : Str × Str) : Prop :=
  item.title = some p.1 ∧ ∃ s, item.snippet = some s ∧
    (!(p.1).isEmpty && !s.isEmpty && titleRelevant p.1) = true ∧
    p.2 = extractDescription s

/-! ### Helper lemmas -/

theorem mem_processItem {acc : List (Str × Str)} {item : SearchItem} {p : Str × Str}
    (h : p ∈ processItem acc item) : p ∈ acc ∨ fromItem item p := by
  obtain ⟨title, snippet⟩ := item
  cases title with
  | none => exact Or.inl (by simpa [processItem] using h)
  | some t =>
    cases snippet with
    | none => exact Or.inl (by simpa [processItem] using h)
    | some s =>
      simp only [processItem] at h
      split at h
      · rename_i hc
        simp only [dictInsert] at h
        split at h
        · exact Or.inl h
        · rcases List.mem_append.mp h with h' | h'
          · exact Or.inl h'
          · have hp : p = (t, extractDescription s) := by simpa using h'
            subst hp
            exact Or.inr ⟨rfl, s, rfl, hc, rfl⟩
      · exact Or.inl h

theorem mem_foldl_processItem (items : List SearchItem) :
    ∀ (acc : List (Str × Str)) (p : Str × Str), p ∈ items.foldl processItem acc →
      p ∈ acc ∨ ∃ item, item ∈ items ∧ fromItem item p := by
  induction items with
  | nil => intro acc p h; exact Or.inl h
  | cons it its ih =>
    intro acc p h
    rw [List.foldl_cons] at h
    rcases ih _ p h with h' | ⟨item, hmem, hfrom⟩
    · rcases mem_processItem h' with h'' | h''
      · exact Or.inl h''
      · exact Or.inr ⟨it, List.mem_cons_self it its, h''⟩
    · exact Or.inr ⟨item, List.mem_cons_of_mem _ hmem, hfrom⟩

theorem dictLookup_processItem {acc : List (Str × Str)} {k v : Str} (item : SearchItem)
    (h : dictLookup acc k = some v) : dictLookup (processItem acc item) k = some v := by
  obtain ⟨title, snippet⟩ := item
  cases title with
  | none => simpa [processItem] using h
  | some t =>
    cases snippet with
    | none => simpa [processItem] using h
    | some s =>
      simp only [processItem]
      split
      · simp only [dictInsert]
        split
        · exact h
        · simp only [dictLookup] at h ⊢
          rw [List.find?_append]
          rcases Option.map_eq_some'.mp h with ⟨q, hq, hv⟩
          rw [hq]
          simpa using hv
      · exact h

theorem dictLookup_foldl (items : List SearchItem) :
    ∀ (acc : List (Str × Str)) (k v : Str), dictLookup acc k = some v →
      dictLookup (items.foldl processItem acc) k = some v := by
  induction items with
  | nil => intro acc k v h; exact h
  | cons it its ih =>
    intro acc k v h
    rw [List.foldl_cons]
    exact ih _ k v (dictLookup_processItem it h)

theorem pre_takeUntil (sep : Str) (s : Str) : takeUntil sep s <+: s := by
  induction s with
  | nil => exact ⟨[], rfl⟩
  | cons c cs ih =>
    rw [takeUntil]
    split
    · exact ⟨c :: cs, rfl⟩
    · obtain ⟨t, ht⟩ := ih
      exact ⟨t, by rw [List.cons_append, ht]⟩

theorem not_sep_infix_takeUntil (sep : Str) (hsep : sep ≠ []) (s : Str) :
    ¬ sep <:+: takeUntil sep s := by
  induction s with
  | nil =>
    intro h
    exact hsep (List.sublist_nil.mp h.sublist)
  | cons c cs ih =>
    intro h
    rw [takeUntil] at h
    by_cases hp : sep.isPrefixOf (c :: cs) = true
    · rw [if_pos hp] at h
      exact hsep (List.sublist_nil.mp h.sublist)
    · rw [if_neg hp] at h
      rcases List.infix_cons_iff.mp h with hpre | hinf
      · cases sep with
        | nil => exact hsep rfl
        | cons d ds =>
          rcases List.cons_prefix_cons.mp hpre with ⟨rfl, hds⟩
          have h1 : ds <+: cs := hds.trans (pre_takeUntil (d :: ds) cs)
          exact hp (by simp [h1])
      · exact ih hinf

theorem head?_some_of_pre {l m : Str} (h : l <+: m) {c : Char}
    (hc : l.head? = some c) : m.head? = some c := by
  obtain ⟨t, rfl⟩ := h
  cases l with
  | nil => simp at hc
  | cons a l => simpa using hc

theorem head?_dropWhile_false {p : Char → Bool} {l : Str} {c : Char}
    (h : (l.dropWhile p).head? = some c) : p c = false := by
  have hw := List.head?_dropWhile_not p l
  rw [h] at hw
  exact hw

theorem pre_of_suf_reverse {l m : Str} (h : l <:+ m.reverse) : l.reverse <+: m := by
  obtain ⟨u, hu⟩ := h
  refine ⟨u.reverse, ?_⟩
  rw [← List.reverse_append, hu, List.reverse_reverse]

theorem stripChars_pre_dropWhile (s : Str) :
    stripChars s <+: s.dropWhile Char.isWhitespace :=
  pre_of_suf_reverse (List.dropWhile_suffix _)

theorem infix_of_pre {l m : Str} (h : l <+: m) : l <:+: m := by
  obtain ⟨t, rfl⟩ := h
  exact ⟨[], t, rfl⟩

theorem infix_of_suf {l m : Str} (h : l <:+ m) : l <:+: m := by
  obtain ⟨u, rfl⟩ := h
  exact ⟨u, [], by simp⟩

theorem infix_stripChars (s : Str) : stripChars s <:+: s :=
  (infix_of_pre (stripChars_pre_dropWhile s)).trans (infix_of_suf (List.dropWhile_suffix _))

theorem stripChars_head_not_ws {s : Str} {c : Char}
    (h : (stripChars s).head? = some c) : c.isWhitespace = false :=
  head?_dropWhile_false (head?_some_of_pre (stripChars_pre_dropWhile s) h)

theorem stripChars_getLast_not_ws {s : Str} {c : Char}
    (h : (stripChars s).getLast? = some c) : c.isWhitespace = false := by
  rw [stripChars, List.getLast?_reverse] at h
  exact head?_dropWhile_false h

theorem not_dots_infix_extract (s : Str) : ¬ dots <:+: extractDescription s := by
  intro h
  exact not_sep_infix_takeUntil dots (by decide) s (h.trans (infix_stripChars _))

/-! ### Claim theorems -/

/-- C1: for every date query, the special-day lookup tool is a total function
(it never raises); when the underlying search raises, the failure is absorbed
and the tool returns the empty mapping, and when the search succeeds the tool
returns the processed mapping. -/
theorem tool_absorbs_failures (provider : SearchRequest → Except Str SearchResponse)
    (cx dateQuery : Str) :
    (∀ e, provider (mkSearchRequest cx dateQuery) = Except.error e →
      get_special_day_info_from_external_source provider cx dateQuery = []) ∧
    (∀ res, provider (mkSearchRequest cx dateQuery) = Except.ok res →
      get_special_day_info_from_external_source provider cx dateQuery = processResponse res) := by
  constructor <;> intro x h <;>
    simp [get_special_day_info_from_external_source, search_special_days, h, Except.map]

/-- Witness for C1: a provider that always fails yields the empty mapping. -/
theorem tool_absorbs_failures_witness :
    get_special_day_info_from_external_source
      (fun _ => Except.error "HttpError 403".data) "engine-id".data "May 21".data = [] :=
  (tool_absorbs_failures (fun _ => Except.error "HttpError 403".data)
    "engine-id".data "May 21".data).1 "HttpError 403".data rfl

/-- C5: when the provider response has no `items` field, the lookup returns
the empty mapping. -/
theorem no_items_gives_empty (provider : SearchRequest → Except Str SearchResponse)
    (cx dateQuery : Str)
    (h : provider (mkSearchRequest cx dateQuery) = Except.ok { items := none }) :
    get_special_day_info_from_external_source provider cx dateQuery = [] := by
  simp [get_special_day_info_from_external_source, search_special_days, h, Except.map,
    processResponse]

/-- Witness for C5 at a concrete provider returning a response without items. -/
theorem no_items_gives_empty_witness :
    get_special_day_info_from_external_source
      (fun _ => Except.ok { items := none }) "engine-id".data "May 21".data = [] :=
  no_items_gives_empty (fun _ => Except.ok { items := none })
    "engine-id".data "May 21".data rfl

/-- C6: each invocation of the search issues exactly one outbound request; its
query text is the fixed keywords concatenated with the date query, and its
result-count limit is 5. -/
theorem one_request_fixed_query (provider : SearchRequest → Except Str SearchResponse)
    (cx dateQuery : Str) :
    (search_special_days provider cx dateQuery).2 =
      [{ q := "international OR world OR national day ".data ++ dateQuery
              ++ " official observances".data,
         cx := cx, num := 5 }] := rfl

/-- C7: when either configuration value is absent, the startup check exits
with a non-zero status, and the whole program terminates with that status
whatever the agent construction or the runner would have done (no agent
logic runs and no network call is attempted). -/
theorem missing_config_exits (apiKey cseId : Option Str)
    (h : apiKey = none ∨ cseId = none) :
    ∃ code, code ≠ 0 ∧
      ∀ (constructOutcome : Except Str Unit) (runOutcome : Except Str (List AdkEvent)),
        program apiKey cseId constructOutcome runOutcome = ProcessOutcome.exited code := by
  refine ⟨1, one_ne_zero, fun constructOutcome runOutcome => ?_⟩
  rcases h with h | h <;> subst h <;>
    simp [program, startup_check, pyTruthy]

/-- Witness for C7: missing API key exits with status 1. -/
theorem missing_config_exits_witness :
    ∃ code, code ≠ 0 ∧
      ∀ (constructOutcome : Except Str Unit) (runOutcome : Except Str (List AdkEvent)),
        program none (some "engine-id".data) constructOutcome runOutcome =
          ProcessOutcome.exited code :=
  missing_config_exits none (some "engine-id".data) (Or.inl rfl)

/-- C10: an item whose title or snippet is present but equal to the empty
string is excluded: the loop body leaves the accumulated mapping unchanged. -/
theorem empty_string_fields_excluded (acc : List (Str × Str)) (title snippet : Str)
    (h : title = [] ∨ snippet = []) :
    processItem acc { title := some title, snippet := some snippet } = acc := by
  rcases h with h | h <;> subst h <;> simp [processItem]

/-- Witness for C10: an empty title with a relevant-looking snippet adds nothing. -/
theorem empty_string_fields_excluded_witness :
    processItem [] { title := some [], snippet := some "A day for X".data } = [] :=
  empty_string_fields_excluded [] [] "A day for X".data (Or.inl rfl)

/-- C2: an item contributes an entry to the result mapping only if it has
both a title and a snippet and the title contains "day" or "observance"
case-insensitively; any entry of the result comes from such an item, so an
item whose title lacks both substrings is excluded. -/
theorem result_entries_pass_filter (res : SearchResponse) (k v : Str)
    (h : (k, v) ∈ processResponse res) :
    ∃ items, res.items = some items ∧
      ∃ item, item ∈ items ∧ item.title = some k ∧ (∃ s, item.snippet = some s) ∧
        titleRelevant k = true := by
  obtain ⟨items⟩ := res
  cases items with
  | none => simp [processResponse] at h
  | some its =>
    simp only [processResponse, processItems] at h
    rcases mem_foldl_processItem its [] _ h with h' | ⟨item, hmem, ht, s, hs, hc, hv⟩
    · simp at h'
    · refine ⟨its, rfl, item, hmem, ht, ⟨s, hs⟩, ?_⟩
      simp only [Bool.and_eq_true] at hc
      exact hc.2

/-- Witness for C2 at a concrete one-item response. -/
theorem result_entries_pass_filter_witness :
    ("National Pizza Day".data, "Enjoy a slice".data) ∈ processResponse
      ⟨some [⟨some "National Pizza Day".data,
          some "Enjoy a slice... every February".data⟩]⟩ ∧
    ∃ items, (SearchResponse.mk (some [⟨some "National Pizza Day".data,
        some "Enjoy a slice... every February".data⟩])).items = some items ∧
      ∃ item, item ∈ items ∧ item.title = some "National Pizza Day".data ∧
        (∃ s, item.snippet = some s) ∧ titleRelevant "National Pizza Day".data = true :=
  ⟨by decide, result_entries_pass_filter
    ⟨some [⟨some "National Pizza Day".data,
        some "Enjoy a slice... every February".data⟩]⟩
    "National Pizza Day".data "Enjoy a slice".data (by decide)⟩

/-- C3: every stored description is the extracted form of some item's
snippet — the snippet cut at the first occurrence of "..." and trimmed — and
the spec's concrete example evaluates as stated: title "International Day
of X" with snippet "A day for X... more text" yields the entry
"International Day of X" -> "A day for X". -/
theorem descriptions_cut_at_dots :
    (∀ (res : SearchResponse) (k v : Str), (k, v) ∈ processResponse res →
      ∃ items, res.items = some items ∧
        ∃ item, item ∈ items ∧ ∃ s, item.snippet = some s ∧ v = extractDescription s) ∧
    processResponse ⟨some [⟨some "International Day of X".data,
        some "A day for X... more text".data⟩]⟩ =
      [("International Day of X".data, "A day for X".data)] := by
  constructor
  · intro res k v h
    obtain ⟨items⟩ := res
    cases items with
    | none => simp [processResponse] at h
    | some its =>
      simp only [processResponse, processItems] at h
      rcases mem_foldl_processItem its [] _ h with h' | ⟨item, hmem, ht, s, hs, hc, hv⟩
      · simp at h'
      · exact ⟨its, rfl, item, hmem, s, hs, hv⟩
  · decide

/-- Witness for C3: a concrete snippet with leading whitespace and a "..."
cut point. -/
theorem descriptions_cut_at_dots_witness :
    ∃ items, (SearchResponse.mk (some [⟨some "World Oceans Day".data,
        some "  Celebrating oceans... every June".data⟩])).items = some items ∧
      ∃ item, item ∈ items ∧ ∃ s, item.snippet = some s ∧
        "Celebrating oceans".data = extractDescription s :=
  descriptions_cut_at_dots.1
    ⟨some [⟨some "World Oceans Day".data,
        some "  Celebrating oceans... every June".data⟩]⟩
    "World Oceans Day".data "Celebrating oceans".data (by decide)

/-- C4: entries already in the result mapping are never overwritten by later
items: extending the item list preserves every existing binding, and on the
spec's concrete duplicate-title example only the first description is kept. -/
theorem first_description_kept :
    (∀ (items more : List SearchItem) (k v : Str),
      dictLookup (processItems items) k = some v →
      dictLookup (processItems (items ++ more)) k = some v) ∧
    processItems
      [⟨some "World Kindness Day".data, some "Be kind... today".data⟩,
       ⟨some "World Kindness Day".data, some "Second snippet... x".data⟩] =
      [("World Kindness Day".data, "Be kind".data)] := by
  constructor
  · intro items more k v h
    unfold processItems at h ⊢
    rw [List.foldl_append]
    exact dictLookup_foldl more _ k v h
  · decide

/-- Witness for C4: the binding made by the first item survives a later item
with the same title. -/
theorem first_description_kept_witness :
    dictLookup (processItems
      ([⟨some "World Kindness Day".data, some "Be kind... today".data⟩] ++
       [⟨some "World Kindness Day".data, some "Ignore me... x".data⟩]))
      "World Kindness Day".data = some "Be kind".data :=
  first_description_kept.1
    [⟨some "World Kindness Day".data, some "Be kind... today".data⟩]
    [⟨some "World Kindness Day".data, some "Ignore me... x".data⟩]
    "World Kindness Day".data "Be kind".data (by decide)

/-- C8 counterexample: the claim that only missing startup configuration
terminates the process is false.  With both configuration values present and
truthy, an exception raised by the `SpecialDayAgent` construction at line
181 — which stands outside every try/except, and which the misspelled
`HarmCategory.HARMS_CATEGORY_*` members referenced at lines 128–130 make
raise an `AttributeError` — propagates uncaught and terminates the process. -/
theorem construction_crash_counterexample :
    program (some "api-key".data) (some "engine-id".data)
      (Except.error "AttributeError: HARMS_CATEGORY_HATE_SPEECH".data) (Except.ok []) =
      ProcessOutcome.crashed "AttributeError: HARMS_CATEGORY_HATE_SPEECH".data ∧
    pyTruthy (some "api-key".data) = true ∧
    pyTruthy (some "engine-id".data) = true ∧
    ¬ (∀ (apiKey cseId : Option Str) (constructOutcome : Except Str Unit)
        (runOutcome : Except Str (List AdkEvent)) (msg : Str),
        program apiKey cseId constructOutcome runOutcome = ProcessOutcome.crashed msg →
        apiKey = none ∨ cseId = none) := by
  refine ⟨rfl, rfl, rfl, fun hclaim => ?_⟩
  rcases hclaim (some "api-key".data) (some "engine-id".data)
      (Except.error "AttributeError: HARMS_CATEGORY_HATE_SPEECH".data) (Except.ok [])
      "AttributeError: HARMS_CATEGORY_HATE_SPEECH".data rfl with h | h <;> simp at h

/-- C8 (amended): an error raised by the agent runtime during the daily
check is caught and turned into a reported result rather than a crash; the
process exits with a status code only through the startup configuration
check; and the one remaining terminating path is an exception from the
uncaught agent construction of line 181. -/
theorem daily_check_errors_caught :
    (∀ (apiKey cseId : Option Str) (e : Str),
      startup_check apiKey cseId = Except.ok () →
      program apiKey cseId (Except.ok ()) (Except.error e) =
        ProcessOutcome.finished (RunResult.caughtException e)) ∧
    (∀ (apiKey cseId : Option Str) (constructOutcome : Except Str Unit)
        (runOutcome : Except Str (List AdkEvent)) (code : Nat),
      program apiKey cseId constructOutcome runOutcome = ProcessOutcome.exited code →
      startup_check apiKey cseId = Except.error code) ∧
    (∀ (apiKey cseId : Option Str) (constructOutcome : Except Str Unit)
        (runOutcome : Except Str (List AdkEvent)) (msg : Str),
      program apiKey cseId constructOutcome runOutcome = ProcessOutcome.crashed msg →
      constructOutcome = Except.error msg) := by
  refine ⟨?_, ?_, ?_⟩
  · intro apiKey cseId e h
    simp [program, h, run_daily_check]
  · intro apiKey cseId constructOutcome runOutcome code h
    unfold program at h
    split at h
    · rename_i c hc
      cases h
      exact hc
    · rename_i u hc
      split at h <;> cases h
  · intro apiKey cseId constructOutcome runOutcome msg h
    unfold program at h
    split at h
    · rename_i c hc
      cases h
    · rename_i u hc
      split at h
      · cases h
        rfl
      · cases h

/-- Witness for C8 (amended): with both configuration values present and
the construction succeeding, a runner exception is caught and reported. -/
theorem daily_check_errors_caught_witness :
    program (some "api-key".data) (some "engine-id".data) (Except.ok ())
      (Except.error "RuntimeError from runner".data) =
      ProcessOutcome.finished (RunResult.caughtException "RuntimeError from runner".data) :=
  daily_check_errors_caught.1 (some "api-key".data) (some "engine-id".data)
    "RuntimeError from runner".data (by rfl)

/-- C9: invariant of every returned mapping: no value contains the literal
sequence "..." and no value starts or ends with a whitespace character. -/
theorem result_values_clean (res : SearchResponse) (k v : Str)
    (h : (k, v) ∈ processResponse res) :
    ¬ (dots <:+: v) ∧ v.head?.all (fun c => !c.isWhitespace) = true ∧
      v.getLast?.all (fun c => !c.isWhitespace) = true := by
  obtain ⟨items⟩ := res
  cases items with
  | none => simp [processResponse] at h
  | some its =>
    simp only [processResponse, processItems] at h
    rcases mem_foldl_processItem its [] _ h with h' | ⟨item, hmem, ht, s, hs, hc, hv⟩
    · simp at h'
    · have hv' : v = extractDescription s := hv
      subst hv'
      refine ⟨not_dots_infix_extract s, ?_, ?_⟩
      · cases hh : (extractDescription s).head? with
        | none => rfl
        | some c =>
          have hc2 : c.isWhitespace = false :=
            stripChars_head_not_ws (by simpa [extractDescription] using hh)
          simp [Option.all, hc2]
      · cases hh : (extractDescription s).getLast? with
        | none => rfl
        | some c =>
          have hc2 : c.isWhitespace = false :=
            stripChars_getLast_not_ws (by simpa [extractDescription] using hh)
          simp [Option.all, hc2]

/-- Witness for C9 at a concrete response whose snippet carries surrounding
whitespace and a "..." separator. -/
theorem result_values_clean_witness :
    ("Random Acts of Kindness Day".data, "Do one kind thing".data) ∈ processResponse
      ⟨some [⟨some "Random Acts of Kindness Day".data,
          some "  Do one kind thing...  and more".data⟩]⟩ ∧
    (¬ (dots <:+: "Do one kind thing".data) ∧
      ("Do one kind thing".data).head?.all (fun c => !c.isWhitespace) = true ∧
      ("Do one kind thing".data).getLast?.all (fun c => !c.isWhitespace) = true) :=
  ⟨by decide, result_values_clean
    ⟨some [⟨some "Random Acts of Kindness Day".data,
        some "  Do one kind thing...  and more".data⟩]⟩
    "Random Acts of Kindness Day".data "Do one kind thing".data (by decide)⟩

end GreetingAgent
